import Mathlib

/-!
Shallow embedding of the business-logic layer of the Performance SaaS
Dashboard (files `src/lib/services/dashboard.ts` and
`src/lib/services/reports.ts`), together with proofs of the testable
properties stated in the specification.

Modelling conventions:
* The relational data store (Prisma) is a `Store`: plain lists of
  `DailyMetric` and `Transaction` rows.  Queries become list filtering,
  sorting and slicing.
* JavaScript numbers are embedded as `ℚ` (the claims under study are
  exact-value claims; none exercises binary floating-point rounding).
* `Date` values are embedded as their internal representation, epoch
  milliseconds (`ℤ`); `Date.prototype.toISOString` becomes `isoString`,
  an executable renderer of the canonical ISO-8601 instant form.
* Prisma `aggregate` returns `null` sums/averages when no row matches;
  this is `Option ℚ`.  The JavaScript `x || d` idiom on nullable numbers
  (both `null` and `0` are falsy) is `jsOr`.
-/

namespace SaaS

/-- Transaction status enum, from the Prisma data model
(`status ∈ {COMPLETED, PENDING, FAILED, REFUNDED}`). -/
inductive TransactionStatus where
  | COMPLETED | PENDING | FAILED | REFUNDED
deriving DecidableEq

/-- Transaction type enum (`type ∈ {PAYMENT, SUBSCRIPTION, ONE_TIME, REFUND}`). -/
inductive TransactionType where
  | PAYMENT | SUBSCRIPTION | ONE_TIME | REFUND
deriving DecidableEq

/-- Serialization of a status value, as Prisma/JS sees the enum. -/
def TransactionStatus.asString : TransactionStatus → String
  | .COMPLETED => "COMPLETED"
  | .PENDING => "PENDING"
  | .FAILED => "FAILED"
  | .REFUNDED => "REFUNDED"

/-- Serialization of a type value. -/
def TransactionType.asString : TransactionType → String
  | .PAYMENT => "PAYMENT"
  | .SUBSCRIPTION => "SUBSCRIPTION"
  | .ONE_TIME => "ONE_TIME"
  | .REFUND => "REFUND"

/-- The `{name, email}` projection of a Customer row (`name` is nullable). -/
structure Customer where
  name : Option String
  email : String
deriving DecidableEq

/-- A Transaction row.  `amount` is the store's fixed-point currency value,
embedded as `ℚ`; `createdAt` is epoch milliseconds. -/
structure Transaction where
  id : String
  organizationId : String
  amount : ℚ
  currency : String
  status : TransactionStatus
  type : TransactionType
  description : Option String
  createdAt : ℤ
  customer : Customer
deriving DecidableEq

/-- A DailyMetric row; `date` is epoch milliseconds. -/
structure DailyMetric where
  organizationId : String
  date : ℤ
  revenue : ℚ
  activeUsers : ℤ
  totalCustomers : ℤ
  churnedCustomers : ℤ
  conversionRate : ℚ
deriving DecidableEq

/-- A snapshot of the data store. -/
structure Store where
  dailyMetrics : List DailyMetric
  transactions : List Transaction

/-- JavaScript `x || d` on a nullable number: `null` and `0` are falsy.
This also covers `Number(x) || d`, since `Number(null) = 0`. -/
def jsOr (x : Option ℚ) (d : ℚ) : ℚ :=
  match x with
  | none => d
  | some v => if v = 0 then d else v

/-- JavaScript `Math.round`: round half towards +∞. -/
def jsRound (q : ℚ) : ℤ := ⌊q + 1/2⌋

/-- One day in milliseconds. -/
def dayMs : ℤ := 86400000

/-- The `date-fns` helper `subDays(t, n)`. -/
def subDays (t : ℤ) (n : ℤ) : ℤ := t - n * dayMs

/-- Calendar day index (days since epoch, UTC) of an instant. -/
def dayOf (t : ℤ) : ℤ := ⌊(t : ℚ) / (dayMs : ℚ)⌋

/-- The `date-fns` helper `startOfDay` (UTC embedding). -/
def startOfDay (t : ℤ) : ℤ := dayOf t * dayMs

/-- The `date-fns` helper `endOfDay` (UTC embedding): 23:59:59.999 of the same day. -/
def endOfDay (t : ℤ) : ℤ := dayOf t * dayMs + (dayMs - 1)

/-- Result of a Prisma `aggregate` call on DailyMetric
(`_sum` of four fields, `_avg` of `conversionRate`); all `null` when no
row matched the `where` clause. -/
structure MetricAgg where
  sumRevenue : Option ℚ
  sumActiveUsers : Option ℚ
  sumChurnedCustomers : Option ℚ
  sumTotalCustomers : Option ℚ
  avgConversionRate : Option ℚ
deriving DecidableEq

/-- Prisma `aggregate` over a list of matched DailyMetric rows. -/
def aggregate (rows : List DailyMetric) : MetricAgg :=
  match rows with
  | [] => ⟨none, none, none, none, none⟩
  | _ =>
    ⟨some ((rows.map (·.revenue)).sum),
     some ((rows.map (fun m => (m.activeUsers : ℚ))).sum),
     some ((rows.map (fun m => (m.churnedCustomers : ℚ))).sum),
     some ((rows.map (fun m => (m.totalCustomers : ℚ))).sum),
     some ((rows.map (·.conversionRate)).sum / rows.length)⟩

/-- The flat KPI record returned by `getKPIData`. -/
structure KPISummary where
  revenue : ℚ
  revenueChange : ℚ
  activeUsers : ℤ
  activeUsersChange : ℚ
  conversionRate : ℚ
  conversionChange : ℚ
  churnRate : ℚ
  churnChange : ℚ
deriving DecidableEq

/-- Lines 59–63 of `dashboard.ts`: `Number(sum.revenue) || 0`. -/
def revenueOf (a : MetricAgg) : ℚ := jsOr a.sumRevenue 0

/-- Lines 65–66 of `dashboard.ts`: `(sum.activeUsers || 0) / 30`. -/
def activeUsersOf (a : MetricAgg) : ℚ := jsOr a.sumActiveUsers 0 / 30

/-- Lines 71–72 of `dashboard.ts`: `Number(avg.conversionRate) || 0`. -/
def conversionOf (a : MetricAgg) : ℚ := jsOr a.avgConversionRate 0

/-- Lines 78–80 / 82–84 of `dashboard.ts`:
`(churned || 0) / ((totalCustomers || 1) / 30) * 100`. -/
def churnRateOf (a : MetricAgg) : ℚ :=
  jsOr a.sumChurnedCustomers 0 / (jsOr a.sumTotalCustomers 1 / 30) * 100

/-- The percent-change pattern of `dashboard.ts`
(`prev > 0 ? (curr - prev) / prev * 100 : 0`). -/
def pctChange (curr prev : ℚ) : ℚ :=
  if prev > 0 then (curr - prev) / prev * 100 else 0

/-- Lines 58–98 of `dashboard.ts`: derive the KPI record from the two
window aggregates. -/
def computeKPIFromAgg (currentMetrics previousMetrics : MetricAgg) : KPISummary :=
  let currentRevenue := revenueOf currentMetrics
  let previousRevenue := revenueOf previousMetrics
  let currentActiveUsers := activeUsersOf currentMetrics
  let previousActiveUsers := activeUsersOf previousMetrics
  let currentConversion := conversionOf currentMetrics
  let previousConversion := conversionOf previousMetrics
  let currentChurnRate := churnRateOf currentMetrics
  let previousChurnRate := churnRateOf previousMetrics
  { revenue := currentRevenue
    revenueChange := pctChange currentRevenue previousRevenue
    activeUsers := jsRound currentActiveUsers
    activeUsersChange := pctChange currentActiveUsers previousActiveUsers
    conversionRate := currentConversion
    conversionChange := pctChange currentConversion previousConversion
    churnRate := currentChurnRate
    churnChange := pctChange currentChurnRate previousChurnRate }

/-- The current 30-day window query of `getKPIData`
(`date ≥ today − 30d` and `date ≤ today`, scoped to the organization). -/
def currentWindowRows (s : Store) (organizationId : String) (now : ℤ) : List DailyMetric :=
  s.dailyMetrics.filter (fun m =>
    m.organizationId == organizationId
      && decide (subDays now 30 ≤ m.date) && decide (m.date ≤ now))

/-- The previous window query of `getKPIData`
(`date ≥ today − 60d` and `date < today − 30d`). -/
def previousWindowRows (s : Store) (organizationId : String) (now : ℤ) : List DailyMetric :=
  s.dailyMetrics.filter (fun m =>
    m.organizationId == organizationId
      && decide (subDays now 60 ≤ m.date) && decide (m.date < subDays now 30))

/-- Function `getKPIData` of `dashboard.ts` (the spec's `computeKPISummary`).
`now` is the wall clock `new Date()`. -/
def getKPIData (s : Store) (organizationId : String) (now : ℤ) : KPISummary :=
  computeKPIFromAgg
    (aggregate (currentWindowRows s organizationId now))
    (aggregate (previousWindowRows s organizationId now))

/-! ### Deterministic ordering of query results

`orderBy` results of the store are embedded as a stable insertion sort
with a Boolean comparison. -/

/-- Insert `x` into `l` before the first element `y` with `le x y`. -/
def insertLe (le : α → α → Bool) (x : α) : List α → List α
  | [] => [x]
  | y :: ys => if le x y then x :: y :: ys else y :: insertLe le x ys

/-- Stable insertion sort by the Boolean comparison `le`. -/
def sortLe (le : α → α → Bool) : List α → List α
  | [] => []
  | x :: xs => insertLe le x (sortLe le xs)

/-- Prisma `orderBy: { createdAt: "desc" }` on a fetched transaction list. -/
def sortByCreatedAtDesc (l : List Transaction) : List Transaction :=
  sortLe (fun a b => decide (b.createdAt ≤ a.createdAt)) l

/-! ### Transaction queries (`getTransactions`, `getReportData`) -/

/-- Contiguous-substring test on character lists. -/
def hasSubstr (sub : List Char) : List Char → Bool
  | [] => sub.isEmpty
  | c :: rest => sub.isPrefixOf (c :: rest) || hasSubstr sub rest

/-- Case-insensitive substring match (Prisma `contains`, `mode:
"insensitive"`). -/
def containsCI (s q : String) : Bool := hasSubstr q.toLower.data s.toLower.data

/-- The filter record of `getTransactions`; absent `page`/`pageSize`
default to 1/10 inside the function. -/
structure DashboardFilters where
  organizationId : String
  search : Option String := none
  status : Option String := none
  page : Option ℕ := none
  pageSize : Option ℕ := none

/-- The `where` clause built at `dashboard.ts` lines 131–142: organization
scope, conjoined with a status equality when `status` is truthy and not
`"all"`, and with a customer name-or-email substring match when `search`
is truthy. -/
def transactionWhere (organizationId : String) (search status : Option String)
    (t : Transaction) : Bool :=
  t.organizationId == organizationId
    && (match status with
        | none => true
        | some st => if st ≠ "" ∧ st ≠ "all" then t.status.asString == st else true)
    && (match search with
        | none => true
        | some q =>
          if q ≠ "" then
            (match t.customer.name with
             | some n => containsCI n q
             | none => false) || containsCI t.customer.email q
          else true)

/-- The projection of a transaction row returned by `getTransactions`
(`dashboard.ts` lines 166–175). -/
structure TransactionRow where
  id : String
  amount : ℚ
  currency : String
  status : TransactionStatus
  type : TransactionType
  description : Option String
  createdAt : ℤ
  customer : Customer
deriving DecidableEq

/-- Row projection of `getTransactions`. -/
def toTransactionRow (t : Transaction) : TransactionRow :=
  { id := t.id, amount := t.amount, currency := t.currency, status := t.status,
    type := t.type, description := t.description, createdAt := t.createdAt,
    customer := t.customer }

/-- The result record of `getTransactions`. -/
structure TransactionsPage where
  transactions : List TransactionRow
  totalCount : ℕ
  page : ℕ
  pageSize : ℕ
deriving DecidableEq

/-- Function `getTransactions` of `dashboard.ts` (the spec's `queryTransactions`):
count all matches, then return the page slice of the `createdAt`-descending
ordering, skipping `(page − 1) × pageSize` rows and taking `pageSize`. -/
def getTransactions (s : Store) (filters : DashboardFilters) : TransactionsPage :=
  let page := filters.page.getD 1
  let pageSize := filters.pageSize.getD 10
  let matched := s.transactions.filter
    (transactionWhere filters.organizationId filters.search filters.status)
  let totalCount := matched.length
  let sorted := sortByCreatedAtDesc matched
  { transactions := ((sorted.drop ((page - 1) * pageSize)).take pageSize).map toTransactionRow,
    totalCount := totalCount, page := page, pageSize := pageSize }

/-- The full `createdAt`-descending result set of a `getTransactions`
filter (every matching row, in order, projected to the returned shape). -/
def fullResult (s : Store) (organizationId : String) (search status : Option String) :
    List TransactionRow :=
  (sortByCreatedAtDesc
    (s.transactions.filter (transactionWhere organizationId search status))).map
    toTransactionRow

/-- The filter record of `getReportData`.  The source takes `startDate` /
`endDate` as ISO date strings and parses them (`parseISO`); the embedding
carries the parsed instants (epoch ms) directly. -/
structure ReportFilters where
  organizationId : String
  startDate : Option ℤ := none
  endDate : Option ℤ := none
  status : Option String := none
  type : Option String := none

/-- The `where` clause built at `reports.ts` lines 17–34. -/
def reportWhere (f : ReportFilters) (t : Transaction) : Bool :=
  t.organizationId == f.organizationId
    && (match f.startDate with
        | none => true
        | some d => decide (startOfDay d ≤ t.createdAt))
    && (match f.endDate with
        | none => true
        | some d => decide (t.createdAt ≤ endOfDay d))
    && (match f.status with
        | none => true
        | some st => if st ≠ "" ∧ st ≠ "all" then t.status.asString == st else true)
    && (match f.type with
        | none => true
        | some ty => if ty ≠ "" ∧ ty ≠ "all" then t.type.asString == ty else true)

/-- The transaction record projected by `getReportData`
(`reports.ts` lines 63–73); `customerName` is `customer.name || "Unknown"`. -/
structure ReportTransaction where
  id : String
  amount : ℚ
  currency : String
  status : TransactionStatus
  type : TransactionType
  description : Option String
  createdAt : ℤ
  customerName : String
  customerEmail : String
deriving DecidableEq

/-- Row projection of `getReportData`. -/
def toReportTransaction (t : Transaction) : ReportTransaction :=
  { id := t.id, amount := t.amount, currency := t.currency, status := t.status,
    type := t.type, description := t.description, createdAt := t.createdAt,
    customerName :=
      match t.customer.name with
      | some n => if n = "" then "Unknown" else n
      | none => "Unknown",
    customerEmail := t.customer.email }

/-- The summary record of `getReportData` (`reports.ts` lines 51–60). -/
structure ReportSummary where
  totalTransactions : ℕ
  totalRevenue : ℚ
  completedCount : ℕ
  pendingCount : ℕ
  failedCount : ℕ
  refundedCount : ℕ
deriving DecidableEq

/-- The result record of `getReportData`. -/
structure ReportData where
  transactions : List ReportTransaction
  summary : ReportSummary
deriving DecidableEq

/-- Function `getReportData` of `reports.ts` (the spec's `queryReport`): fetch all
matching transactions ordered by `createdAt` descending, compute the
status summary, and project the rows. -/
def getReportData (s : Store) (filters : ReportFilters) : ReportData :=
  let transactions := sortByCreatedAtDesc (s.transactions.filter (reportWhere filters))
  let summary : ReportSummary :=
    { totalTransactions := transactions.length,
      totalRevenue :=
        ((transactions.filter (fun t => t.status == .COMPLETED)).map (·.amount)).sum,
      completedCount := (transactions.filter (fun t => t.status == .COMPLETED)).length,
      pendingCount := (transactions.filter (fun t => t.status == .PENDING)).length,
      failedCount := (transactions.filter (fun t => t.status == .FAILED)).length,
      refundedCount := (transactions.filter (fun t => t.status == .REFUNDED)).length }
  { transactions := transactions.map toReportTransaction, summary := summary }

/-- The point shape returned by `getChartData`.  The source renders the
day as the calendar-day string `m.date.toISOString().split("T")[0]`, an
injective and strictly monotone rendering of the UTC day index on the
representable range; the embedding carries the day index itself. -/
structure ChartPoint where
  date : ℤ
  revenue : ℚ
  activeUsers : ℤ
deriving DecidableEq

/-- The window query of `getChartData` (`dashboard.ts` lines 104–118):
`date ≥ startOfDay(today − days)` and `date ≤ endOfDay(today)`, scoped to
the organization. -/
def chartWindowRows (s : Store) (organizationId : String) (now : ℤ) (days : ℤ) :
    List DailyMetric :=
  s.dailyMetrics.filter (fun m =>
    m.organizationId == organizationId
      && decide (startOfDay (subDays now days) ≤ m.date)
      && decide (m.date ≤ endOfDay now))

/-- Prisma `orderBy: { date: "asc" }` on a fetched DailyMetric list. -/
def sortByDateAsc (l : List DailyMetric) : List DailyMetric :=
  sortLe (fun a b => decide (a.date ≤ b.date)) l

/-- Function `getChartData` of `dashboard.ts` (the spec's `computeDailySeries`). -/
def getChartData (s : Store) (organizationId : String) (now : ℤ) (days : ℤ) :
    List ChartPoint :=
  (sortByDateAsc (chartWindowRows s organizationId now days)).map
    (fun m => { date := dayOf m.date, revenue := m.revenue, activeUsers := m.activeUsers })

/-- Two DailyMetric rows on consecutive days, for chart witnesses. -/
def chartRow1 : DailyMetric :=
  { organizationId := "org1", date := 0, revenue := 5, activeUsers := 7,
    totalCustomers := 10, churnedCustomers := 0, conversionRate := 1 }

def chartRow2 : DailyMetric :=
  { organizationId := "org1", date := 86400000, revenue := 6, activeUsers := 8,
    totalCustomers := 11, churnedCustomers := 1, conversionRate := 2 }

/-- A store whose metric rows arrive out of date order. -/
def chartStore : Store := { dailyMetrics := [chartRow2, chartRow1], transactions := [] }

/-- A sample customer for concrete witnesses. -/
def sampleCustomer : Customer := { name := some "Ada", email := "ada@example.com" }

/-- Sample transactions (distinct `createdAt`) for concrete witnesses. -/
def tx1 : Transaction :=
  { id := "t1", organizationId := "org1", amount := 10, currency := "USD",
    status := .COMPLETED, type := .PAYMENT, description := none,
    createdAt := 300, customer := sampleCustomer }

def tx2 : Transaction :=
  { id := "t2", organizationId := "org1", amount := 20, currency := "USD",
    status := .PENDING, type := .SUBSCRIPTION, description := some "monthly",
    createdAt := 200, customer := sampleCustomer }

def tx3 : Transaction :=
  { id := "t3", organizationId := "org1", amount := 30, currency := "EUR",
    status := .FAILED, type := .REFUND, description := none,
    createdAt := 100, customer := sampleCustomer }

/-- A three-transaction store for pagination witnesses. -/
def sampleStore : Store := { dailyMetrics := [], transactions := [tx1, tx2, tx3] }

/-- The empty data store. -/
def emptyStore : Store := { dailyMetrics := [], transactions := [] }

/-- The single DailyMetric row of the spec §8 churn scenario. -/
def churnScenarioRow : DailyMetric :=
  { organizationId := "acme", date := 0, revenue := 0, activeUsers := 0,
    totalCustomers := 30, churnedCustomers := 3, conversionRate := 0 }

/-- A one-row store realizing the spec §8 churn scenario: the current
window's `totalCustomers` sum is 30 and its `churnedCustomers` sum is 3. -/
def churnScenarioStore : Store :=
  { dailyMetrics := [churnScenarioRow], transactions := [] }

/-! ### CSV generation (`generateCSV` of `reports.ts`)

The CSV text is built at the character-list level.  `Array.prototype.join`
is `joinChar`; JS `Number.prototype.toFixed(2)` is `toFixed2` (round to
the nearest hundredth, ties towards the larger value, per ECMA-262); and
`Date.prototype.toISOString` is `isoChars`, computed from the epoch-ms
instant with the standard civil-from-days calendar algorithm (valid for
years 0–9999, which covers every instant this embedding uses). -/

/-- The decimal digit character for `n` (callers keep `n < 10`). -/
def digitChar (n : ℕ) : Char :=
  match n with
  | 0 => '0' | 1 => '1' | 2 => '2' | 3 => '3' | 4 => '4'
  | 5 => '5' | 6 => '6' | 7 => '7' | 8 => '8' | _ => '9'

/-- Fuel-bounded base-10 rendering (`fuel` bounds the digit count). -/
def natToDigitsAux : ℕ → ℕ → List Char
  | 0, _ => []
  | fuel + 1, n =>
    if n < 10 then [digitChar n]
    else natToDigitsAux fuel (n / 10) ++ [digitChar (n % 10)]

/-- Base-10 rendering of a natural number, most significant digit first. -/
def natToDigits (n : ℕ) : List Char := natToDigitsAux (n + 1) n

/-- Zero-pad a rendered number to width `w`. -/
def padNum (w n : ℕ) : List Char :=
  List.replicate (w - (natToDigits n).length) '0' ++ natToDigits n

/-- The integer-hundredths value selected by `toFixed(2)`:
the nearest hundredth, ties towards the larger value. -/
def centsOf (q : ℚ) : ℤ := ⌊q * 100 + 1/2⌋

/-- Render an integer number of hundredths with exactly two decimals. -/
def renderCents (c : ℤ) : List Char :=
  if c < 0 then
    '-' :: (natToDigits (c.natAbs / 100) ++ '.' :: padNum 2 (c.natAbs % 100))
  else natToDigits (c.natAbs / 100) ++ '.' :: padNum 2 (c.natAbs % 100)

/-- JS `q.toFixed(2)`. -/
def toFixed2 (q : ℚ) : List Char := renderCents (centsOf q)

/-- Civil date (year, month, day) of a day index (days since 1970-01-01,
proleptic Gregorian). -/
def civilFromDays (z : ℤ) : ℤ × ℕ × ℕ :=
  let zs := z + 719468
  let era := Int.fdiv zs 146097
  let doe := (zs - era * 146097).toNat
  let yoe := (doe - doe / 1460 + doe / 36524 - doe / 146096) / 365
  let doy := doe - (365 * yoe + yoe / 4 - yoe / 100)
  let mp := (5 * doy + 2) / 153
  let d := doy - (153 * mp + 2) / 5 + 1
  let m := if mp < 10 then mp + 3 else mp - 9
  (((yoe : ℤ) + era * 400) + (if m ≤ 2 then 1 else 0), m, d)

/-- Rendering of `Date.prototype.toISOString` for an epoch-ms instant:
`YYYY-MM-DDTHH:mm:ss.sssZ`. -/
def isoChars (ms : ℤ) : List Char :=
  let day := Int.fdiv ms 86400000
  let msod := (ms - day * 86400000).toNat
  let ymd := civilFromDays day
  padNum 4 ymd.1.toNat ++ '-' :: padNum 2 ymd.2.1 ++ '-' :: padNum 2 ymd.2.2
    ++ 'T' :: padNum 2 (msod / 3600000) ++ ':' :: padNum 2 (msod % 3600000 / 60000)
    ++ ':' :: padNum 2 (msod % 60000 / 1000) ++ '.' :: padNum 3 (msod % 1000) ++ ['Z']

/-- The fixed header columns of `generateCSV` (`reports.ts` lines 91–101). -/
def csvHeader : List String :=
  ["ID", "Customer Name", "Customer Email", "Amount", "Currency", "Status",
   "Type", "Description", "Date"]

/-- Unconditional double-quote wrapping (no escaping), as applied to
Customer Name and Description. -/
def quoteField (s : String) : List Char := '"' :: (s.data ++ ['"'])

/-- One data row of `generateCSV` (`reports.ts` lines 103–113), fields in
order.  `t.description || ""` is `t.description.getD ""` (JS `||` maps
both `null` and the empty string to `""`); the Date column re-renders the
transaction's instant (`new Date(t.createdAt).toISOString()`). -/
def csvRow (t : ReportTransaction) : List (List Char) :=
  [t.id.data,
   quoteField t.customerName,
   t.customerEmail.data,
   toFixed2 t.amount,
   t.currency.data,
   t.status.asString.data,
   t.type.asString.data,
   quoteField (t.description.getD ""),
   isoChars t.createdAt]

/-- JS `Array.prototype.join(sep)` on character lists. -/
def joinChar (sep : Char) : List (List Char) → List Char
  | [] => []
  | [x] => x
  | x :: y :: rest => x ++ sep :: joinChar sep (y :: rest)

/-- Function `generateCSV` of `reports.ts`:
`[headers.join(","), ...rows.map(r => r.join(","))].join("\n")`. -/
def generateCSV (transactions : List ReportTransaction) : String :=
  ⟨joinChar '\n'
    (joinChar ',' (csvHeader.map (·.data))
      :: transactions.map (fun t => joinChar ',' (csvRow t)))⟩

/-! ### CSV parsing — the reader side of the spec's round-trip contract.
These definitions formalize "parsing the CSV back field-by-field": split
the text into lines, then split each line into fields at commas that are
outside double quotes, stripping the quotes. -/

/-- Split a character list at every occurrence of `c`. -/
def splitOnChar (c : Char) : List Char → List (List Char)
  | [] => [[]]
  | x :: xs =>
    match splitOnChar c xs with
    | [] => [[x]]
    | f :: r => if x = c then [] :: f :: r else (x :: f) :: r

/-- Quote-aware field splitting of one CSV row; `inQ` tracks whether the
scanner is inside a quoted region.  Quote characters are delimiters and
are not part of the field value. -/
def parseRowAux : Bool → List Char → List (List Char)
  | _, [] => [[]]
  | inQ, x :: xs =>
    if x = '"' then parseRowAux (!inQ) xs
    else if x = ',' ∧ inQ = false then [] :: parseRowAux false xs
    else
      match parseRowAux inQ xs with
      | [] => [[x]]
      | f :: r => (x :: f) :: r

/-- Parse one CSV row into its fields. -/
def parseRow (l : List Char) : List (List Char) := parseRowAux false l

/-- Parse a CSV document into rows of fields. -/
def parseCSV (s : String) : List (List (List Char)) :=
  (splitOnChar '\n' s.data).map parseRow

/-- Numeric value of a digit character. -/
def digitVal (c : Char) : ℕ := c.toNat - 48

/-- Base-10 reading of a digit string. -/
def digitsToNat (l : List Char) : ℕ := l.foldl (fun acc c => 10 * acc + digitVal c) 0

/-- Read an unsigned decimal `intpart[.fracpart]` as a rational. -/
def parsePos (l : List Char) : ℚ :=
  let ip := l.takeWhile (fun c => c ≠ '.')
  let fp := (l.dropWhile (fun c => c ≠ '.')).drop 1
  (digitsToNat ip : ℚ) + (digitsToNat fp : ℚ) / (10 : ℚ) ^ fp.length

/-- Read a signed decimal as a rational. -/
def parseDecimal (l : List Char) : ℚ :=
  if l.head? = some '-' then - parsePos l.tail else parsePos l

/-- The ten decimal digit characters. -/
def digitChars : List Char := ['0', '1', '2', '3', '4', '5', '6', '7', '8', '9']

/-- A customer whose email contains a comma (nothing in the data model
forbids this). -/
def commaCustomer : Customer := { name := some "Bob", email := "x,y@z" }

/-- A transaction whose rendered CSV row misaligns under field-by-field
parsing because of the comma in the (unquoted) email field. -/
def commaTx : Transaction :=
  { id := "c1", organizationId := "org2", amount := 1, currency := "USD",
    status := .COMPLETED, type := .PAYMENT, description := none,
    createdAt := 0, customer := commaCustomer }

def commaStore : Store := { dailyMetrics := [], transactions := [commaTx] }

/-- The spec §8 scenario record for `renderCSV`
(`createdAt` "2024-01-15T10:00:00.000Z" = epoch ms 1705312800000). -/
def scenarioTx : ReportTransaction :=
  { id := "t1", amount := 1234.5, currency := "USD", status := .COMPLETED,
    type := .PAYMENT, description := none, createdAt := 1705312800000,
    customerName := "Acme Co", customerEmail := "a@acme.com" }

/-- No comma, double quote or newline among the characters (needed of the
unquoted CSV fields for the row to parse back field-by-field). -/
def noSpecial (s : String) : Prop :=
  ∀ c ∈ s.data, c ≠ ',' ∧ c ≠ '"' ∧ c ≠ '\n'

/-- No double quote or newline (needed of the quoted fields). -/
def noQuoteNewline (s : String) : Prop :=
  ∀ c ∈ s.data, c ≠ '"' ∧ c ≠ '\n'

/-- Well-formedness of one report row for the CSV round trip: the
free-text unquoted fields carry no separator characters, and the quoted
fields carry no quote or newline. -/
def rowWellFormed (t : ReportTransaction) : Prop :=
  noSpecial t.id ∧ noSpecial t.customerEmail ∧ noSpecial t.currency
    ∧ noQuoteNewline t.customerName ∧ noQuoteNewline (t.description.getD "")

theorem mem_insertLe (le : α → α → Bool) (x : α) (l : List α) (a : α) :
    a ∈ insertLe le x l ↔ a = x ∨ a ∈ l := by
  induction l with
  | nil => simp [insertLe]
  | cons y ys ih =>
    by_cases h : le x y = true
    · simp [insertLe, h]
    · simp only [insertLe, if_neg h, List.mem_cons, ih]
      tauto

theorem insertLe_perm (le : α → α → Bool) (x : α) (l : List α) :
    List.Perm (insertLe le x l) (x :: l) := by
  induction l with
  | nil => simp [insertLe]
  | cons y ys ih =>
    by_cases h : le x y = true
    · simp [insertLe, h]
    · simp only [insertLe, if_neg h]
      exact List.Perm.trans (ih.cons y) (List.Perm.swap x y ys)

theorem sortLe_perm (le : α → α → Bool) (l : List α) : List.Perm (sortLe le l) l := by
  induction l with
  | nil => exact List.Perm.refl _
  | cons x xs ih => exact ((insertLe_perm le x (sortLe le xs)).trans (ih.cons x))

theorem pairwise_insertLe (le : α → α → Bool)
    (hconn : ∀ a b, le a b = false → le b a = true)
    (htrans : ∀ a b c, le a b = true → le b c = true → le a c = true)
    (x : α) (l : List α) (h : l.Pairwise (fun a b => le a b = true)) :
    (insertLe le x l).Pairwise (fun a b => le a b = true) := by
  induction l with
  | nil => simp [insertLe]
  | cons y ys ih =>
    rcases List.pairwise_cons.1 h with ⟨hy, hys⟩
    by_cases hxy : le x y = true
    · rw [insertLe, if_pos hxy]
      exact List.pairwise_cons.2
        ⟨fun z hz => (List.mem_cons.1 hz).elim (fun e => e ▸ hxy)
          (fun hz' => htrans x y z hxy (hy z hz')), h⟩
    · rw [insertLe, if_neg hxy]
      refine List.pairwise_cons.2 ⟨fun z hz => ?_, ih hys⟩
      rcases (mem_insertLe le x ys z).1 hz with hzx | hz'
      · subst hzx
        exact hconn _ _ (Bool.not_eq_true _ ▸ hxy)
      · exact hy z hz'

theorem pairwise_sortLe (le : α → α → Bool)
    (hconn : ∀ a b, le a b = false → le b a = true)
    (htrans : ∀ a b c, le a b = true → le b c = true → le a c = true)
    (l : List α) : (sortLe le l).Pairwise (fun a b => le a b = true) := by
  induction l with
  | nil => exact List.Pairwise.nil
  | cons x xs ih => exact pairwise_insertLe le hconn htrans x (sortLe le xs) ih

theorem sortByCreatedAtDesc_pairwise (l : List Transaction) :
    (sortByCreatedAtDesc l).Pairwise (fun a b => b.createdAt ≤ a.createdAt) := by
  refine List.Pairwise.imp (fun h => of_decide_eq_true h) ?_
  refine pairwise_sortLe _ (fun a b h => ?_) (fun a b c h1 h2 => ?_) l
  · exact decide_eq_true (le_of_lt (lt_of_not_le (of_decide_eq_false h)))
  · exact decide_eq_true (le_trans (of_decide_eq_true h2) (of_decide_eq_true h1))

theorem sortByCreatedAtDesc_perm (l : List Transaction) :
    List.Perm (sortByCreatedAtDesc l) l :=
  sortLe_perm _ l

/-- C1: `getKPIData` computes `churnRate` as
`currentChurned / (currentTotalCustomers / 30) * 100`, where a zero or
absent current-window `totalCustomers` sum is replaced by 1 (and a zero
or absent `churnedCustomers` sum by 0) before the division; in
particular, current sums `totalCustomers = 30` and `churned = 3` give
`churnRate = 300` exactly. -/
theorem getKPIData_churnRate_formula (s : Store) (organizationId : String) (now : ℤ) :
    (getKPIData s organizationId now).churnRate
      = jsOr (aggregate (currentWindowRows s organizationId now)).sumChurnedCustomers 0
          / (jsOr (aggregate (currentWindowRows s organizationId now)).sumTotalCustomers 1 / 30)
          * 100
    ∧ ((aggregate (currentWindowRows s organizationId now)).sumTotalCustomers = some 30 →
       (aggregate (currentWindowRows s organizationId now)).sumChurnedCustomers = some 3 →
       (getKPIData s organizationId now).churnRate = 300) := by
  constructor
  · rfl
  · intro h30 h3
    show churnRateOf (aggregate (currentWindowRows s organizationId now)) = 300
    rw [churnRateOf, h30, h3]
    norm_num [jsOr]

/-- Witness for C1 at a concrete store (the §8 scenario literally). -/
theorem getKPIData_churnRate_formula_witness :
    (getKPIData churnScenarioStore "acme" 0).churnRate = 300 :=
  (getKPIData_churnRate_formula churnScenarioStore "acme" 0).2
    (by norm_num [churnScenarioStore, churnScenarioRow, currentWindowRows,
      aggregate, subDays, dayMs])
    (by norm_num [churnScenarioStore, churnScenarioRow, currentWindowRows,
      aggregate, subDays, dayMs])

/-- C2: whenever the previous-window quantity used as the denominator of
a percent change is ≤ 0, `getKPIData` returns 0 for the corresponding
change field; the division is never performed in that case. -/
theorem getKPIData_zero_prev_guards (s : Store) (organizationId : String) (now : ℤ) :
    (revenueOf (aggregate (previousWindowRows s organizationId now)) ≤ 0 →
      (getKPIData s organizationId now).revenueChange = 0)
    ∧ (activeUsersOf (aggregate (previousWindowRows s organizationId now)) ≤ 0 →
      (getKPIData s organizationId now).activeUsersChange = 0)
    ∧ (conversionOf (aggregate (previousWindowRows s organizationId now)) ≤ 0 →
      (getKPIData s organizationId now).conversionChange = 0)
    ∧ (churnRateOf (aggregate (previousWindowRows s organizationId now)) ≤ 0 →
      (getKPIData s organizationId now).churnChange = 0) := by
  refine ⟨fun h => ?_, fun h => ?_, fun h => ?_, fun h => ?_⟩ <;>
  · show pctChange _ _ = 0
    exact if_neg (not_lt.2 h)

/-- Witness for C2 at the empty store (all previous-window values are 0). -/
theorem getKPIData_zero_prev_guards_witness :
    (getKPIData emptyStore "acme" 0).revenueChange = 0
    ∧ (getKPIData emptyStore "acme" 0).activeUsersChange = 0
    ∧ (getKPIData emptyStore "acme" 0).conversionChange = 0
    ∧ (getKPIData emptyStore "acme" 0).churnChange = 0 :=
  ⟨(getKPIData_zero_prev_guards emptyStore "acme" 0).1
      (by norm_num [emptyStore, previousWindowRows, aggregate, revenueOf, jsOr]),
   (getKPIData_zero_prev_guards emptyStore "acme" 0).2.1
      (by norm_num [emptyStore, previousWindowRows, aggregate, activeUsersOf, jsOr]),
   (getKPIData_zero_prev_guards emptyStore "acme" 0).2.2.1
      (by norm_num [emptyStore, previousWindowRows, aggregate, conversionOf, jsOr]),
   (getKPIData_zero_prev_guards emptyStore "acme" 0).2.2.2
      (by norm_num [emptyStore, previousWindowRows, aggregate, churnRateOf, jsOr])⟩

/-- C3: an organization with no DailyMetric rows in either window gets
all four metrics 0 and all four changes 0. -/
theorem getKPIData_empty_windows (s : Store) (organizationId : String) (now : ℤ)
    (hc : currentWindowRows s organizationId now = [])
    (hp : previousWindowRows s organizationId now = []) :
    getKPIData s organizationId now =
      { revenue := 0, revenueChange := 0, activeUsers := 0, activeUsersChange := 0,
        conversionRate := 0, conversionChange := 0, churnRate := 0, churnChange := 0 } := by
  unfold getKPIData
  rw [hc, hp]
  norm_num [computeKPIFromAgg, aggregate, revenueOf, activeUsersOf, conversionOf,
    churnRateOf, pctChange, jsOr, jsRound, KPISummary.mk.injEq]

/-- Witness for C3 at the empty store. -/
theorem getKPIData_empty_windows_witness :
    getKPIData emptyStore "acme" 0 =
      { revenue := 0, revenueChange := 0, activeUsers := 0, activeUsersChange := 0,
        conversionRate := 0, conversionChange := 0, churnRate := 0, churnChange := 0 } :=
  getKPIData_empty_windows emptyStore "acme" 0 rfl rfl

theorem transactionWhere_all (organizationId : String) (search : Option String) :
    transactionWhere organizationId search (some "all")
      = transactionWhere organizationId search none := by
  funext t
  simp [transactionWhere]

theorem reportWhere_all_status (organizationId : String) (startDate endDate : Option ℤ)
    (ty : Option String) :
    reportWhere ⟨organizationId, startDate, endDate, some "all", ty⟩
      = reportWhere ⟨organizationId, startDate, endDate, none, ty⟩ := by
  funext t
  simp [reportWhere]

theorem reportWhere_all_type (organizationId : String) (startDate endDate : Option ℤ)
    (st : Option String) :
    reportWhere ⟨organizationId, startDate, endDate, st, some "all"⟩
      = reportWhere ⟨organizationId, startDate, endDate, st, none⟩ := by
  funext t
  simp [reportWhere]

/-- C4: the literal filter value `"all"` behaves exactly like an omitted
filter: for `getTransactions`' `status`, and for `getReportData`'s
`status` and `type`, with all other filters and the store arbitrary. -/
theorem all_filter_means_omitted (s : Store) (organizationId : String)
    (search : Option String) (page pageSize : Option ℕ)
    (startDate endDate : Option ℤ) (st ty : Option String) :
    getTransactions s ⟨organizationId, search, some "all", page, pageSize⟩
      = getTransactions s ⟨organizationId, search, none, page, pageSize⟩
    ∧ getReportData s ⟨organizationId, startDate, endDate, some "all", ty⟩
      = getReportData s ⟨organizationId, startDate, endDate, none, ty⟩
    ∧ getReportData s ⟨organizationId, startDate, endDate, st, some "all"⟩
      = getReportData s ⟨organizationId, startDate, endDate, st, none⟩ := by
  refine ⟨?_, ?_, ?_⟩
  · simp only [getTransactions, transactionWhere_all]
  · simp only [getReportData, reportWhere_all_status]
  · simp only [getReportData, reportWhere_all_type]

theorem status_counts_partition (l : List Transaction) :
    (l.filter (fun t => t.status == TransactionStatus.COMPLETED)).length
      + (l.filter (fun t => t.status == TransactionStatus.PENDING)).length
      + (l.filter (fun t => t.status == TransactionStatus.FAILED)).length
      + (l.filter (fun t => t.status == TransactionStatus.REFUNDED)).length
      = l.length := by
  induction l with
  | nil => rfl
  | cons t ts ih =>
    cases h : t.status <;> simp [List.filter_cons, h] <;> omega

/-- C6: the summary of `getReportData` is correct over the returned
transaction list: `totalTransactions` is its length, `totalRevenue` sums
`amount` over exactly the COMPLETED rows, each per-status count counts
exactly the rows of that status, and the four counts partition the
total. -/
theorem getReportData_summary_correct (s : Store) (filters : ReportFilters) :
    (getReportData s filters).summary.totalTransactions
        = (getReportData s filters).transactions.length
    ∧ (getReportData s filters).summary.totalRevenue
        = (((getReportData s filters).transactions.filter
            (fun t => t.status == TransactionStatus.COMPLETED)).map (·.amount)).sum
    ∧ (getReportData s filters).summary.completedCount
        = ((getReportData s filters).transactions.filter
            (fun t => t.status == TransactionStatus.COMPLETED)).length
    ∧ (getReportData s filters).summary.pendingCount
        = ((getReportData s filters).transactions.filter
            (fun t => t.status == TransactionStatus.PENDING)).length
    ∧ (getReportData s filters).summary.failedCount
        = ((getReportData s filters).transactions.filter
            (fun t => t.status == TransactionStatus.FAILED)).length
    ∧ (getReportData s filters).summary.refundedCount
        = ((getReportData s filters).transactions.filter
            (fun t => t.status == TransactionStatus.REFUNDED)).length
    ∧ (getReportData s filters).summary.completedCount
        + (getReportData s filters).summary.pendingCount
        + (getReportData s filters).summary.failedCount
        + (getReportData s filters).summary.refundedCount
        = (getReportData s filters).summary.totalTransactions := by
  refine ⟨?_, ?_, ?_, ?_, ?_, ?_, ?_⟩ <;>
    simp only [getReportData, List.filter_map, List.map_map, List.length_map]
  all_goals first
  | rfl
  | exact status_counts_partition _

/-- C10: the transaction list returned by `getReportData` (and hence the
row order of the CSV built from it) is ordered by `createdAt`
descending. -/
theorem getReportData_ordered_desc (s : Store) (filters : ReportFilters) :
    (getReportData s filters).transactions.Pairwise
      (fun a b => b.createdAt ≤ a.createdAt) := by
  unfold getReportData
  exact List.Pairwise.map _ (fun a b h => h) (sortByCreatedAtDesc_pairwise _)

theorem pages_succ (p : ℕ) (hp : 0 < p) (m : ℕ) (hm : 1 ≤ m) :
    (m + p - 1) / p = (m - p + p - 1) / p + 1 := by
  rcases le_or_lt p m with hle | hlt
  · rw [show m + p - 1 = (m - 1) + p from by omega, Nat.add_div_right _ hp,
      show m - p + p - 1 = m - 1 from by omega]
  · rw [show m - p = 0 from by omega]
    rw [show m + p - 1 = (m - 1) + p from by omega, Nat.add_div_right _ hp,
      Nat.div_eq_of_lt (by omega), Nat.div_eq_of_lt (by omega)]

theorem join_chunks {α : Type _} (p : ℕ) (hp : 0 < p) :
    ∀ (n : ℕ) (l : List α), l.length = n →
      ((List.range ((l.length + p - 1) / p)).map
        (fun i => (l.drop (i * p)).take p)).flatten = l := by
  intro n
  induction n using Nat.strong_induction_on with
  | _ n ih =>
    intro l hl
    cases l with
    | nil =>
      have h0 : (List.length ([] : List α) + p - 1) / p = 0 :=
        Nat.div_eq_of_lt (by simp only [List.length_nil]; omega)
      rw [h0, List.range_zero, List.map_nil, List.flatten_nil]
    | cons a as =>
      have hlen : 1 ≤ (a :: as).length := by simp
      have hpages : ((a :: as).length + p - 1) / p
          = ((((a :: as).drop p).length + p - 1) / p) + 1 := by
        rw [List.length_drop]
        exact pages_succ p hp _ hlen
      have hdl : ((a :: as).drop p).length < n := by
        rw [List.length_drop, List.length_cons]
        rw [List.length_cons] at hl
        omega
      have hih := ih _ hdl ((a :: as).drop p) rfl
      rw [hpages, List.range_succ_eq_map, List.map_cons, List.map_map, List.flatten_cons]
      have hshift : ∀ i : ℕ,
          ((a :: as).drop ((i + 1) * p)).take p
            = (((a :: as).drop p).drop (i * p)).take p := by
        intro i
        rw [List.drop_drop, Nat.succ_mul, Nat.add_comm (i * p) p]
      calc ((a :: as).drop (0 * p)).take p
            ++ ((List.range ((((a :: as).drop p).length + p - 1) / p)).map
                ((fun i => ((a :: as).drop (i * p)).take p) ∘ Nat.succ)).flatten
          = (a :: as).take p
            ++ ((List.range ((((a :: as).drop p).length + p - 1) / p)).map
                (fun i => (((a :: as).drop p).drop (i * p)).take p)).flatten := by
            rw [Nat.zero_mul, List.drop_zero]
            congr 1
            apply congrArg
            apply List.map_congr_left
            intro i _
            exact hshift i
        _ = (a :: as).take p ++ (a :: as).drop p := by rw [hih]
        _ = a :: as := List.take_append_drop p (a :: as)

/-- C5: for a fixed snapshot and filters, `getTransactions` returns the
same `totalCount` on every page; each page is the
`(page − 1) × pageSize` slice of the full `createdAt`-descending result
set; and concatenating pages `1 .. ceil(totalCount / pageSize)` in order
reproduces the full ordered result set with no duplicates and no gaps. -/
theorem getTransactions_pagination (s : Store) (organizationId : String)
    (search status : Option String) (page pageSize : ℕ)
    (_hpage : 1 ≤ page) (hps : 1 ≤ pageSize) :
    (getTransactions s ⟨organizationId, search, status, some page, some pageSize⟩).totalCount
        = (fullResult s organizationId search status).length
    ∧ (getTransactions s ⟨organizationId, search, status, some page, some pageSize⟩).transactions
        = ((fullResult s organizationId search status).drop ((page - 1) * pageSize)).take pageSize
    ∧ ((List.range (((fullResult s organizationId search status).length + pageSize - 1) / pageSize)).map
          (fun i =>
            (getTransactions s
              ⟨organizationId, search, status, some (i + 1), some pageSize⟩).transactions)).flatten
        = fullResult s organizationId search status := by
  have hmap : ∀ n m : ℕ,
      (((sortByCreatedAtDesc
          (s.transactions.filter
            (transactionWhere organizationId search status))).drop n).take m).map
          toTransactionRow
        = ((fullResult s organizationId search status).drop n).take m := by
    intro n m
    rw [fullResult, List.map_take, List.map_drop]
  refine ⟨?_, ?_, ?_⟩
  · show (s.transactions.filter (transactionWhere organizationId search status)).length
        = (fullResult s organizationId search status).length
    rw [fullResult, List.length_map]
    exact ((sortLe_perm _ _).length_eq).symm
  · exact hmap ((page - 1) * pageSize) pageSize
  · have hpages : ∀ i : ℕ,
        (getTransactions s
          ⟨organizationId, search, status, some (i + 1), some pageSize⟩).transactions
          = ((fullResult s organizationId search status).drop (i * pageSize)).take pageSize := by
      intro i
      exact hmap (i * pageSize) pageSize
    calc ((List.range (((fullResult s organizationId search status).length + pageSize - 1) / pageSize)).map
          (fun i =>
            (getTransactions s
              ⟨organizationId, search, status, some (i + 1), some pageSize⟩).transactions)).flatten
        = ((List.range (((fullResult s organizationId search status).length + pageSize - 1) / pageSize)).map
          (fun i =>
            ((fullResult s organizationId search status).drop (i * pageSize)).take pageSize)).flatten := by
          apply congrArg
          apply List.map_congr_left
          intro i _
          exact hpages i
      _ = fullResult s organizationId search status :=
          join_chunks pageSize hps _ _ rfl

/-- Witness for C5: the pagination law instantiated at a concrete
three-transaction store with `pageSize = 2`, `page = 2`. -/
theorem getTransactions_pagination_witness :
    (getTransactions sampleStore ⟨"org1", none, none, some 2, some 2⟩).totalCount
        = (fullResult sampleStore "org1" none none).length
    ∧ (getTransactions sampleStore ⟨"org1", none, none, some 2, some 2⟩).transactions
        = ((fullResult sampleStore "org1" none none).drop ((2 - 1) * 2)).take 2
    ∧ ((List.range (((fullResult sampleStore "org1" none none).length + 2 - 1) / 2)).map
          (fun i =>
            (getTransactions sampleStore
              ⟨"org1", none, none, some (i + 1), some 2⟩).transactions)).flatten
        = fullResult sampleStore "org1" none none :=
  getTransactions_pagination sampleStore "org1" none none 2 2 (by decide) (by decide)

theorem pairwise_imp_mem {α : Type _} {R S : α → α → Prop} :
    ∀ (l : List α), (∀ a b, a ∈ l → b ∈ l → R a b → S a b) → l.Pairwise R → l.Pairwise S := by
  intro l
  induction l with
  | nil => exact fun _ _ => List.Pairwise.nil
  | cons x xs ih =>
    intro H h
    rcases List.pairwise_cons.1 h with ⟨hx, hxs⟩
    refine List.pairwise_cons.2 ⟨fun y hy =>
      H x y (List.mem_cons_self _ _) (List.mem_cons_of_mem _ hy) (hx y hy), ?_⟩
    exact ih (fun a b ha hb => H a b (List.mem_cons_of_mem _ ha) (List.mem_cons_of_mem _ hb)) hxs

theorem pairwise_and {α : Type _} {R S : α → α → Prop} :
    ∀ (l : List α), l.Pairwise R → l.Pairwise S →
      l.Pairwise (fun a b => R a b ∧ S a b) := by
  intro l
  induction l with
  | nil => exact fun _ _ => List.Pairwise.nil
  | cons x xs ih =>
    intro hR hS
    rcases List.pairwise_cons.1 hR with ⟨hxR, hR'⟩
    rcases List.pairwise_cons.1 hS with ⟨hxS, hS'⟩
    exact List.pairwise_cons.2 ⟨fun y hy => ⟨hxR y hy, hxS y hy⟩, ih hR' hS'⟩

theorem dayOf_bounds (t : ℤ) : dayOf t * dayMs ≤ t ∧ t < (dayOf t + 1) * dayMs := by
  have hD : (0 : ℚ) < ((dayMs : ℤ) : ℚ) := by norm_num [dayMs]
  constructor
  · have h1 : ((dayOf t : ℤ) : ℚ) ≤ (t : ℚ) / ((dayMs : ℤ) : ℚ) := Int.floor_le _
    rw [le_div_iff₀ hD] at h1
    exact_mod_cast h1
  · have h2 : (t : ℚ) / ((dayMs : ℤ) : ℚ) < dayOf t + 1 := Int.lt_floor_add_one _
    rw [div_lt_iff₀ hD] at h2
    exact_mod_cast h2

theorem le_dayOf (t k : ℤ) (h : k * dayMs ≤ t) : k ≤ dayOf t := by
  by_contra hlt
  push_neg at hlt
  have h2 := (dayOf_bounds t).2
  have hD : (0 : ℤ) < dayMs := by norm_num [dayMs]
  have hmul : (dayOf t + 1) * dayMs ≤ k * dayMs :=
    mul_le_mul_of_nonneg_right (by omega) (le_of_lt hD)
  linarith

theorem dayOf_le (t k : ℤ) (h : t ≤ k * dayMs + (dayMs - 1)) : dayOf t ≤ k := by
  by_contra hlt
  push_neg at hlt
  have h1 := (dayOf_bounds t).1
  have hD : (0 : ℤ) < dayMs := by norm_num [dayMs]
  have hmul : (k + 1) * dayMs ≤ dayOf t * dayMs :=
    mul_le_mul_of_nonneg_right (by omega) (le_of_lt hD)
  have hexp : (k + 1) * dayMs = k * dayMs + dayMs := by ring
  linarith

theorem dayOf_mono {a b : ℤ} (h : a ≤ b) : dayOf a ≤ dayOf b :=
  le_dayOf b (dayOf a) (le_trans (dayOf_bounds a).1 h)

theorem dayOf_sub_days (t d : ℤ) : dayOf (subDays t d) = dayOf t - d := by
  unfold dayOf subDays
  have hD : ((dayMs : ℤ) : ℚ) ≠ 0 := by norm_num [dayMs]
  have hq : ((t - d * dayMs : ℤ) : ℚ) / ((dayMs : ℤ) : ℚ)
      = (t : ℚ) / ((dayMs : ℤ) : ℚ) - (d : ℚ) := by
    push_cast
    field_simp
    ring
  rw [hq, Int.floor_sub_int]

theorem sortByDateAsc_pairwise (l : List DailyMetric) :
    (sortByDateAsc l).Pairwise (fun a b => a.date ≤ b.date) := by
  refine List.Pairwise.imp (fun h => of_decide_eq_true h) ?_
  refine pairwise_sortLe _ (fun a b h => ?_) (fun a b c h1 h2 => ?_) l
  · exact decide_eq_true (le_of_lt (lt_of_not_le (of_decide_eq_false h)))
  · exact decide_eq_true (le_trans (of_decide_eq_true h1) (of_decide_eq_true h2))

theorem sortByDateAsc_perm (l : List DailyMetric) : List.Perm (sortByDateAsc l) l :=
  sortLe_perm _ l

/-- C9: for every organization, clock and `days` parameter, under the §3
data-model invariant that an organization has at most one DailyMetric row
per calendar day, `getChartData` returns points in strictly ascending
date order, all lying in the calendar-day interval
`[today − days, today]`. -/
theorem getChartData_sorted_bounded (s : Store) (organizationId : String)
    (now : ℤ) (days : ℤ)
    (huniq : s.dailyMetrics.Pairwise (fun a b =>
      a.organizationId = organizationId → b.organizationId = organizationId →
        dayOf a.date ≠ dayOf b.date)) :
    (getChartData s organizationId now days).Pairwise (fun p q => p.date < q.date)
    ∧ ∀ p ∈ getChartData s organizationId now days,
        dayOf now - days ≤ p.date ∧ p.date ≤ dayOf now := by
  have horg : ∀ m ∈ chartWindowRows s organizationId now days,
      m.organizationId = organizationId := by
    intro m hm
    have h := (List.mem_filter.1 hm).2
    simp only [Bool.and_eq_true, beq_iff_eq] at h
    exact h.1.1
  have hfl : (chartWindowRows s organizationId now days).Pairwise
      (fun a b => dayOf a.date ≠ dayOf b.date) := by
    refine pairwise_imp_mem _ (fun a b ha hb hab => ?_)
      (huniq.sublist (List.filter_sublist _))
    exact hab (horg a ha) (horg b hb)
  constructor
  · have hle := sortByDateAsc_pairwise (chartWindowRows s organizationId now days)
    have hne : (sortByDateAsc (chartWindowRows s organizationId now days)).Pairwise
        (fun a b => dayOf a.date ≠ dayOf b.date) :=
      ((sortByDateAsc_perm _).pairwise_iff (by intro a b h; exact Ne.symm h)).2 hfl
    have hstrict := (pairwise_and _ hle hne).imp
      (fun h => lt_of_le_of_ne (dayOf_mono h.1) h.2)
    exact List.Pairwise.map _ (fun a b h => h) hstrict
  · intro p hp
    rcases List.mem_map.1 hp with ⟨m, hm, rfl⟩
    have hmem : m ∈ chartWindowRows s organizationId now days :=
      ((sortByDateAsc_perm _).mem_iff).1 hm
    have hcond := (List.mem_filter.1 hmem).2
    simp only [Bool.and_eq_true, decide_eq_true_eq] at hcond
    rcases hcond with ⟨⟨_, hstart⟩, hend⟩
    constructor
    · have := le_dayOf m.date (dayOf (subDays now days)) hstart
      rw [dayOf_sub_days] at this
      exact this
    · exact dayOf_le m.date (dayOf now) hend

/-- Witness for C9 at a concrete two-row store whose rows arrive out of
order: the returned chart points are strictly ascending by day. -/
theorem getChartData_sorted_bounded_witness :
    (getChartData chartStore "org1" 86400000 30).Pairwise (fun p q => p.date < q.date) :=
  (getChartData_sorted_bounded chartStore "org1" 86400000 30
    (by
      simp only [chartStore, chartRow1, chartRow2, List.pairwise_cons,
        List.mem_singleton, List.not_mem_nil]
      norm_num [dayOf, dayMs])).1

/-- C7: `generateCSV []` is exactly the header row (no trailing newline,
no data rows); in general the output is the header followed by one
comma-joined row per transaction in input order, newline-joined, with
Customer Name and Description quoted unconditionally, Amount rendered
with exactly two decimals, Date as the ISO-8601 instant, and an absent
Description rendered as `""`; and the spec §8 scenario transaction
produces exactly the documented row. -/
theorem generateCSV_format :
    generateCSV []
      = "ID,Customer Name,Customer Email,Amount,Currency,Status,Type,Description,Date"
    ∧ (∀ ts : List ReportTransaction,
        (generateCSV ts).data
          = joinChar '\n' ((generateCSV []).data :: ts.map (fun t => joinChar ',' (csvRow t))))
    ∧ generateCSV [scenarioTx]
        = "ID,Customer Name,Customer Email,Amount,Currency,Status,Type,Description,Date\nt1,\"Acme Co\",a@acme.com,1234.50,USD,COMPLETED,PAYMENT,\"\",2024-01-15T10:00:00.000Z" := by
  have hfix : toFixed2 (1234.5 : ℚ) = "1234.50".data := by
    have h : centsOf (1234.5 : ℚ) = 123450 := by norm_num [centsOf]
    rw [toFixed2, h]
    decide
  have hrow : joinChar ',' (csvRow scenarioTx)
      = "t1,\"Acme Co\",a@acme.com,1234.50,USD,COMPLETED,PAYMENT,\"\",2024-01-15T10:00:00.000Z".data := by
    simp only [csvRow, scenarioTx, hfix]
    decide
  refine ⟨by decide, fun ts => rfl, ?_⟩
  show String.mk (joinChar '\n'
      [joinChar ',' (csvHeader.map (·.data)), joinChar ',' (csvRow scenarioTx)]) = _
  rw [hrow]
  decide

/-- Counterexample to C8 as universally stated: for the store holding the
single transaction `commaTx` (amount 1, customer email "x,y@z"), the
comma inside the unquoted Customer Email field shifts every later field,
so parsing the CSV back field-by-field yields an Amount field that does
not parse to the original amount. -/
theorem generateCSV_roundtrip_counterexample :
    (getReportData commaStore ⟨"org2", none, none, none, none⟩).transactions.map
        (fun t => t.amount) = [1]
    ∧ parseDecimal
        (((parseCSV (generateCSV
            (getReportData commaStore
              ⟨"org2", none, none, none, none⟩).transactions)).getD 1 []).getD 3 [])
      ≠ (1 : ℚ) := by
  have htx : (getReportData commaStore ⟨"org2", none, none, none, none⟩).transactions
      = [toReportTransaction commaTx] := by
    simp [getReportData, commaStore, reportWhere, sortByCreatedAtDesc, sortLe, insertLe]
  have hfix : toFixed2 (1 : ℚ) = "1.00".data := by
    have h : centsOf (1 : ℚ) = 100 := by norm_num [centsOf]
    rw [toFixed2, h]
    decide
  have hrow : csvRow (toReportTransaction commaTx)
      = ["c1".data, quoteField "Bob", "x,y@z".data, "1.00".data, "USD".data,
         "COMPLETED".data, "PAYMENT".data, quoteField "", isoChars 0] := by
    simp only [csvRow, toReportTransaction, commaTx, commaCustomer, hfix]
    decide
  have hfield : ((parseCSV (generateCSV [toReportTransaction commaTx])).getD 1 []).getD 3 []
      = "y@z".data := by
    rw [show generateCSV [toReportTransaction commaTx]
        = String.mk (joinChar '\n'
            [joinChar ',' (csvHeader.map (·.data)),
             joinChar ',' (csvRow (toReportTransaction commaTx))]) from rfl, hrow]
    decide
  refine ⟨by rw [htx]; rfl, ?_⟩
  rw [htx, hfield]
  have h1 : "y@z".data.takeWhile (fun c => c ≠ '.') = "y@z".data := by decide
  have h2 : ("y@z".data.dropWhile (fun c => c ≠ '.')).drop 1 = ([] : List Char) := by decide
  have h3 : digitsToNat "y@z".data = 7534 := by decide
  show parsePos "y@z".data ≠ 1
  rw [parsePos, h1, h2, h3]
  norm_num [digitsToNat]

theorem digitChar_mem (n : ℕ) : digitChar n ∈ digitChars := by
  rcases n with _|_|_|_|_|_|_|_|_|n
  · decide
  · decide
  · decide
  · decide
  · decide
  · decide
  · decide
  · decide
  · decide
  · show ('9' : Char) ∈ digitChars
    decide

theorem digit_ne (c : Char) (h : c ∈ digitChars) :
    c ≠ ',' ∧ c ≠ '"' ∧ c ≠ '\n' := by
  simp only [digitChars, List.mem_cons, List.not_mem_nil, or_false] at h
  rcases h with rfl|rfl|rfl|rfl|rfl|rfl|rfl|rfl|rfl|rfl <;> decide

theorem natToDigitsAux_chars (fuel : ℕ) :
    ∀ (n : ℕ), ∀ c ∈ natToDigitsAux fuel n, c ∈ digitChars := by
  induction fuel with
  | zero => intro n c hc; simp [natToDigitsAux] at hc
  | succ fuel ih =>
    intro n c hc
    rw [natToDigitsAux] at hc
    by_cases h : n < 10
    · rw [if_pos h] at hc
      rcases List.mem_cons.1 hc with rfl | hc'
      · exact digitChar_mem n
      · simp at hc'
    · rw [if_neg h] at hc
      rcases List.mem_append.1 hc with h1 | h2
      · exact ih _ c h1
      · rcases List.mem_cons.1 h2 with rfl | h3
        · exact digitChar_mem _
        · simp at h3

theorem natToDigits_chars (n : ℕ) : ∀ c ∈ natToDigits n, c ∈ digitChars :=
  natToDigitsAux_chars (n + 1) n

theorem padNum_chars (w n : ℕ) : ∀ c ∈ padNum w n, c ∈ digitChars := by
  intro c hc
  rcases List.mem_append.1 hc with h1 | h2
  · rw [List.eq_of_mem_replicate h1]
    decide
  · exact natToDigits_chars n c h2

theorem natToDigitsAux_ne_nil (fuel n : ℕ) : natToDigitsAux (fuel + 1) n ≠ [] := by
  rw [natToDigitsAux]
  by_cases h : n < 10
  · rw [if_pos h]; simp
  · rw [if_neg h]; simp

theorem digitVal_digitChar (n : ℕ) (h : n < 10) : digitVal (digitChar n) = n := by
  interval_cases n <;> decide

theorem digitsToNat_append_singleton (a : List Char) (c : Char) :
    digitsToNat (a ++ [c]) = 10 * digitsToNat a + digitVal c := by
  unfold digitsToNat
  rw [List.foldl_append]
  rfl

theorem digitsToNat_natToDigitsAux (fuel : ℕ) :
    ∀ (n : ℕ), n < 10 ^ fuel → digitsToNat (natToDigitsAux fuel n) = n := by
  induction fuel with
  | zero =>
    intro n h
    have hn : n = 0 := by simpa using h
    subst hn
    rfl
  | succ fuel ih =>
    intro n h
    rw [natToDigitsAux]
    by_cases h10 : n < 10
    · rw [if_pos h10]
      show 10 * 0 + digitVal (digitChar n) = n
      rw [digitVal_digitChar n h10]
      omega
    · rw [if_neg h10]
      have hdiv : n / 10 < 10 ^ fuel := by
        rw [Nat.div_lt_iff_lt_mul (by norm_num)]
        calc n < 10 ^ (fuel + 1) := h
          _ = 10 ^ fuel * 10 := by ring
      rw [digitsToNat_append_singleton, ih _ hdiv,
        digitVal_digitChar _ (Nat.mod_lt _ (by norm_num))]
      exact Nat.div_add_mod n 10

theorem digitsToNat_natToDigits (n : ℕ) : digitsToNat (natToDigits n) = n :=
  digitsToNat_natToDigitsAux (n + 1) n
    (lt_of_lt_of_le (Nat.lt_pow_self (by norm_num) n) (Nat.pow_le_pow_right (by norm_num) (by omega)))

theorem digitsToNat_replicate_zero (k : ℕ) (l : List Char) :
    digitsToNat (List.replicate k '0' ++ l) = digitsToNat l := by
  induction k with
  | zero => rfl
  | succ k ih =>
    rw [List.replicate_succ, List.cons_append]
    show List.foldl (fun acc c => 10 * acc + digitVal c)
      (10 * 0 + digitVal '0') (List.replicate k '0' ++ l) = _
    have h0 : 10 * 0 + digitVal '0' = 0 := by decide
    rw [h0]
    exact ih

theorem digitsToNat_padNum2 (m : ℕ) : digitsToNat (padNum 2 m) = m := by
  unfold padNum
  rw [digitsToNat_replicate_zero, digitsToNat_natToDigits]

theorem natToDigitsAux_small (fuel k : ℕ) (h : k < 10) :
    natToDigitsAux (fuel + 1) k = [digitChar k] := by
  rw [natToDigitsAux, if_pos h]

theorem natToDigits_length_le (m : ℕ) (h : m < 100) : (natToDigits m).length ≤ 2 := by
  unfold natToDigits
  by_cases h10 : m < 10
  · rw [natToDigitsAux_small _ _ h10]
    simp
  · have h1 : m / 10 < 10 := by omega
    have h2 : 1 ≤ m := by omega
    rw [natToDigitsAux, if_neg h10]
    have haux := natToDigitsAux_small (m - 1) (m / 10) h1
    rw [show m - 1 + 1 = m from by omega] at haux
    rw [haux]
    simp

theorem padNum2_length (m : ℕ) (h : m < 100) : (padNum 2 m).length = 2 := by
  unfold padNum
  rw [List.length_append, List.length_replicate]
  have := natToDigits_length_le m h
  omega

theorem takeWhile_dot (a t : List Char) (ha : ∀ x ∈ a, x ≠ '.') :
    (a ++ '.' :: t).takeWhile (fun c => c ≠ '.') = a
    ∧ (a ++ '.' :: t).dropWhile (fun c => c ≠ '.') = '.' :: t := by
  induction a with
  | nil =>
    constructor
    · rw [List.nil_append, List.takeWhile_cons]
      simp
    · rw [List.nil_append, List.dropWhile_cons]
      simp
  | cons x a' ih =>
    have hx : x ≠ '.' := ha x (List.mem_cons_self _ _)
    have ih' := ih (fun y hy => ha y (List.mem_cons_of_mem _ hy))
    constructor
    · rw [List.cons_append, List.takeWhile_cons, if_pos (by simpa using hx)]
      rw [ih'.1]
    · rw [List.cons_append, List.dropWhile_cons, if_pos (by simpa using hx)]
      exact ih'.2

theorem parsePos_cents (n : ℕ) :
    parsePos (natToDigits (n / 100) ++ '.' :: padNum 2 (n % 100)) = (n : ℚ) / 100 := by
  have hdig : ∀ x ∈ natToDigits (n / 100), x ≠ '.' := by
    intro x hx
    have h := natToDigits_chars _ x hx
    simp only [digitChars, List.mem_cons, List.not_mem_nil, or_false] at h
    rcases h with rfl|rfl|rfl|rfl|rfl|rfl|rfl|rfl|rfl|rfl <;> decide
  have htw := takeWhile_dot (natToDigits (n / 100)) (padNum 2 (n % 100)) hdig
  unfold parsePos
  rw [htw.1, htw.2]
  simp only [List.drop_one, List.tail_cons]
  rw [digitsToNat_natToDigits, digitsToNat_padNum2,
    padNum2_length (n % 100) (Nat.mod_lt _ (by norm_num))]
  have hdm : (100 : ℚ) * ((n / 100 : ℕ) : ℚ) + ((n % 100 : ℕ) : ℚ) = (n : ℚ) := by
    exact_mod_cast Nat.div_add_mod n 100
  have h10 : ((10 : ℚ) ^ (2 : ℕ)) = 100 := by norm_num
  rw [h10]
  field_simp
  linarith

theorem natToDigits_head_digit (a : ℕ) :
    ∃ c l', natToDigits a = c :: l' ∧ c ∈ digitChars := by
  rcases hd : natToDigits a with _ | ⟨c, l'⟩
  · exact absurd hd (natToDigitsAux_ne_nil a a)
  · exact ⟨c, l', rfl, natToDigits_chars a c (hd ▸ List.mem_cons_self _ _)⟩

theorem parseDecimal_renderCents (z : ℤ) :
    parseDecimal (renderCents z) = (z : ℚ) / 100 := by
  rcases natToDigits_head_digit (z.natAbs / 100) with ⟨c, l', hcl, hcd⟩
  have hcne : c ≠ '-' := by
    simp only [digitChars, List.mem_cons, List.not_mem_nil, or_false] at hcd
    rcases hcd with rfl|rfl|rfl|rfl|rfl|rfl|rfl|rfl|rfl|rfl <;> decide
  by_cases hz : z < 0
  · rw [renderCents, if_pos hz]
    rw [parseDecimal]
    rw [if_pos (by simp)]
    simp only [List.tail_cons]
    rw [parsePos_cents]
    have hzq : (z : ℚ) < 0 := by exact_mod_cast hz
    rw [Int.cast_natAbs]
    push_cast
    rw [abs_of_neg hzq]
    ring
  · rw [renderCents, if_neg hz]
    rw [parseDecimal]
    rw [if_neg (by rw [hcl]; simp [hcne])]
    rw [parsePos_cents]
    have hzq : (0 : ℚ) ≤ (z : ℚ) := by exact_mod_cast not_lt.1 hz
    rw [Int.cast_natAbs]
    push_cast
    rw [abs_of_nonneg hzq]

theorem parseDecimal_toFixed2 (q : ℚ) (h : ∃ z : ℤ, q = (z : ℚ) / 100) :
    parseDecimal (toFixed2 q) = q := by
  rcases h with ⟨z, rfl⟩
  have hc : centsOf ((z : ℚ) / 100) = z := by
    unfold centsOf
    have hmul : (z : ℚ) / 100 * 100 + 1/2 = (z : ℚ) + 1/2 := by
      field_simp
    rw [hmul]
    rw [show ((z : ℚ) + 1/2) = ((1 : ℚ)/2 + z) from by ring, Int.floor_add_int]
    norm_num
  rw [toFixed2, hc, parseDecimal_renderCents]

theorem renderCents_chars (z : ℤ) :
    ∀ c ∈ renderCents z, c ≠ ',' ∧ c ≠ '"' ∧ c ≠ '\n' := by
  have hbody : ∀ c ∈ natToDigits (z.natAbs / 100) ++ '.' :: padNum 2 (z.natAbs % 100),
      c ≠ ',' ∧ c ≠ '"' ∧ c ≠ '\n' := by
    intro c hc
    rcases List.mem_append.1 hc with h1 | h2
    · exact digit_ne c (natToDigits_chars _ c h1)
    · rcases List.mem_cons.1 h2 with rfl | h3
      · decide
      · exact digit_ne c (padNum_chars _ _ c h3)
  intro c hc
  rw [renderCents] at hc
  by_cases hz : z < 0
  · rw [if_pos hz] at hc
    rcases List.mem_cons.1 hc with rfl | hc'
    · decide
    · exact hbody c hc'
  · rw [if_neg hz] at hc
    exact hbody c hc

theorem toFixed2_chars (q : ℚ) :
    ∀ c ∈ toFixed2 q, c ≠ ',' ∧ c ≠ '"' ∧ c ≠ '\n' :=
  renderCents_chars (centsOf q)

theorem isoChars_chars (ms : ℤ) :
    ∀ c ∈ isoChars ms, c ≠ ',' ∧ c ≠ '"' ∧ c ≠ '\n' := by
  intro c hc
  unfold isoChars at hc
  simp only [List.mem_append, List.mem_cons, List.not_mem_nil, or_false] at hc
  repeat' rcases hc with hc | hc
  all_goals first
  | (exact digit_ne c (padNum_chars _ _ c hc))
  | decide

theorem statusString_chars (st : TransactionStatus) :
    ∀ c ∈ st.asString.data, c ≠ ',' ∧ c ≠ '"' ∧ c ≠ '\n' := by
  cases st <;> decide

theorem typeString_chars (ty : TransactionType) :
    ∀ c ∈ ty.asString.data, c ≠ ',' ∧ c ≠ '"' ∧ c ≠ '\n' := by
  cases ty <;> decide

theorem parseRowAux_unquoted (u rest : List Char)
    (hu : ∀ x ∈ u, x ≠ ',' ∧ x ≠ '"') :
    parseRowAux false (u ++ ',' :: rest) = u :: parseRowAux false rest := by
  induction u with
  | nil =>
    rw [List.nil_append, parseRowAux, if_neg (by decide), if_pos (by decide)]
  | cons x u' ih =>
    have hx := hu x (List.mem_cons_self _ _)
    have ih' := ih (fun y hy => hu y (List.mem_cons_of_mem _ hy))
    rw [List.cons_append, parseRowAux, if_neg hx.2,
      if_neg (fun hand => hx.1 hand.1), ih']

theorem parseRowAux_unquoted_last (u : List Char)
    (hu : ∀ x ∈ u, x ≠ ',' ∧ x ≠ '"') :
    parseRowAux false u = [u] := by
  induction u with
  | nil => rfl
  | cons x u' ih =>
    have hx := hu x (List.mem_cons_self _ _)
    have ih' := ih (fun y hy => hu y (List.mem_cons_of_mem _ hy))
    rw [parseRowAux, if_neg hx.2, if_neg (fun hand => hx.1 hand.1), ih']

theorem parseRowAux_inquote (q : List Char) (hq : ∀ x ∈ q, x ≠ '"') :
    ∀ (t f : List Char) (r : List (List Char)),
      parseRowAux true t = f :: r →
      parseRowAux true (q ++ t) = (q ++ f) :: r := by
  induction q with
  | nil =>
    intro t f r h
    simpa using h
  | cons x q' ih =>
    intro t f r h
    have hx : x ≠ '"' := hq x (List.mem_cons_self _ _)
    rw [List.cons_append, parseRowAux, if_neg hx, if_neg (by simp),
      ih (fun y hy => hq y (List.mem_cons_of_mem _ hy)) t f r h]
    rfl

theorem parseRowAux_quoted (q rest : List Char) (hq : ∀ x ∈ q, x ≠ '"') :
    parseRowAux false (('"' :: (q ++ ['"'])) ++ ',' :: rest)
      = q :: parseRowAux false rest := by
  have hassoc : ('"' :: (q ++ ['"'])) ++ ',' :: rest
      = '"' :: (q ++ ('"' :: ',' :: rest)) := by
    simp
  rw [hassoc, parseRowAux, if_pos rfl]
  have hinner : parseRowAux true ('"' :: ',' :: rest) = [] :: parseRowAux false rest := by
    rw [parseRowAux, if_pos rfl, parseRowAux, if_neg (by decide), if_pos (by decide)]
  show parseRowAux true (q ++ '"' :: ',' :: rest) = q :: parseRowAux false rest
  rw [parseRowAux_inquote q hq _ [] (parseRowAux false rest) hinner, List.append_nil]

theorem parseRowAux_quoted_last (q : List Char) (hq : ∀ x ∈ q, x ≠ '"') :
    parseRowAux false ('"' :: (q ++ ['"'])) = [q] := by
  rw [parseRowAux, if_pos rfl]
  have hinner : parseRowAux true ['"'] = [] :: ([] : List (List Char)) := by
    rw [parseRowAux, if_pos rfl]
    rfl
  show parseRowAux true (q ++ ['"']) = [q]
  rw [parseRowAux_inquote q hq _ [] [] hinner, List.append_nil]

theorem parseRow_csvRow (t : ReportTransaction) (hwf : rowWellFormed t) :
    parseRow (joinChar ',' (csvRow t))
      = [t.id.data, t.customerName.data, t.customerEmail.data, toFixed2 t.amount,
         t.currency.data, t.status.asString.data, t.type.asString.data,
         (t.description.getD "").data, isoChars t.createdAt] := by
  rcases hwf with ⟨hid, hemail, hcur, hname, hdesc⟩
  have hid' : ∀ x ∈ t.id.data, x ≠ ',' ∧ x ≠ '"' :=
    fun x hx => ⟨(hid x hx).1, (hid x hx).2.1⟩
  have hemail' : ∀ x ∈ t.customerEmail.data, x ≠ ',' ∧ x ≠ '"' :=
    fun x hx => ⟨(hemail x hx).1, (hemail x hx).2.1⟩
  have hcur' : ∀ x ∈ t.currency.data, x ≠ ',' ∧ x ≠ '"' :=
    fun x hx => ⟨(hcur x hx).1, (hcur x hx).2.1⟩
  have hfix : ∀ x ∈ toFixed2 t.amount, x ≠ ',' ∧ x ≠ '"' :=
    fun x hx => ⟨(toFixed2_chars _ x hx).1, (toFixed2_chars _ x hx).2.1⟩
  have hst : ∀ x ∈ t.status.asString.data, x ≠ ',' ∧ x ≠ '"' :=
    fun x hx => ⟨(statusString_chars _ x hx).1, (statusString_chars _ x hx).2.1⟩
  have hty : ∀ x ∈ t.type.asString.data, x ≠ ',' ∧ x ≠ '"' :=
    fun x hx => ⟨(typeString_chars _ x hx).1, (typeString_chars _ x hx).2.1⟩
  have hiso : ∀ x ∈ isoChars t.createdAt, x ≠ ',' ∧ x ≠ '"' :=
    fun x hx => ⟨(isoChars_chars _ x hx).1, (isoChars_chars _ x hx).2.1⟩
  have hname' : ∀ x ∈ t.customerName.data, x ≠ '"' := fun x hx => (hname x hx).1
  have hdesc' : ∀ x ∈ (t.description.getD "").data, x ≠ '"' := fun x hx => (hdesc x hx).1
  show parseRowAux false _ = _
  simp only [csvRow, joinChar, quoteField]
  rw [parseRowAux_unquoted _ _ hid',
    parseRowAux_quoted _ _ hname',
    parseRowAux_unquoted _ _ hemail',
    parseRowAux_unquoted _ _ hfix,
    parseRowAux_unquoted _ _ hcur',
    parseRowAux_unquoted _ _ hst,
    parseRowAux_unquoted _ _ hty,
    parseRowAux_quoted _ _ hdesc',
    parseRowAux_unquoted_last _ hiso]

theorem splitOnChar_ne_nil (c : Char) (l : List Char) : splitOnChar c l ≠ [] := by
  cases l with
  | nil => simp [splitOnChar]
  | cons x xs =>
    rw [splitOnChar]
    rcases h : splitOnChar c xs with _ | ⟨f, r⟩
    · simp
    · by_cases hx : x = c <;> simp [hx]

theorem splitOnChar_no_sep (c : Char) (a : List Char) (ha : ∀ x ∈ a, x ≠ c) :
    splitOnChar c a = [a] := by
  induction a with
  | nil => rfl
  | cons x xs ih =>
    have hx : x ≠ c := ha x (List.mem_cons_self _ _)
    rw [splitOnChar, ih (fun y hy => ha y (List.mem_cons_of_mem _ hy))]
    simp [hx]

theorem splitOnChar_append (c : Char) (a b : List Char) (ha : ∀ x ∈ a, x ≠ c) :
    splitOnChar c (a ++ c :: b) = a :: splitOnChar c b := by
  induction a with
  | nil =>
    rw [List.nil_append, splitOnChar]
    rcases h : splitOnChar c b with _ | ⟨f, r⟩
    · exact absurd h (splitOnChar_ne_nil c b)
    · simp
  | cons x xs ih =>
    have hx : x ≠ c := ha x (List.mem_cons_self _ _)
    rw [List.cons_append, splitOnChar, ih (fun y hy => ha y (List.mem_cons_of_mem _ hy))]
    simp [hx]

theorem mem_joinChar (sep : Char) (L : List (List Char)) (c : Char) :
    c ∈ joinChar sep L → c = sep ∨ ∃ l ∈ L, c ∈ l := by
  induction L with
  | nil => intro h; simp [joinChar] at h
  | cons x rest ih =>
    cases rest with
    | nil =>
      intro h
      right
      exact ⟨x, List.mem_cons_self _ _, h⟩
    | cons y r =>
      intro h
      rw [joinChar] at h
      rcases List.mem_append.1 h with h1 | h2
      · right
        exact ⟨x, List.mem_cons_self _ _, h1⟩
      · rcases List.mem_cons.1 h2 with rfl | h3
        · left
          rfl
        · rcases ih h3 with h4 | ⟨l, hl, hcl⟩
          · left
            exact h4
          · right
            exact ⟨l, List.mem_cons_of_mem _ hl, hcl⟩

theorem splitOnChar_joinChar (x : List Char) (rest : List (List Char))
    (hx : ∀ c ∈ x, c ≠ '\n') (hrest : ∀ l ∈ rest, ∀ c ∈ l, c ≠ '\n') :
    splitOnChar '\n' (joinChar '\n' (x :: rest)) = x :: rest := by
  induction rest generalizing x with
  | nil => exact splitOnChar_no_sep _ x hx
  | cons y rest' ih =>
    rw [joinChar, splitOnChar_append _ _ _ hx,
      ih y (hrest y (List.mem_cons_self _ _))
        (fun l hl => hrest l (List.mem_cons_of_mem _ hl))]

theorem quoteField_no_newline (s : String) (hs : ∀ x ∈ s.data, x ≠ '"' ∧ x ≠ '\n') :
    ∀ c ∈ quoteField s, c ≠ '\n' := by
  intro c hc
  rcases List.mem_cons.1 hc with rfl | hc2
  · decide
  · rcases List.mem_append.1 hc2 with h3 | h4
    · exact (hs c h3).2
    · simp only [List.mem_singleton] at h4
      subst h4
      decide

theorem csvRow_no_newline (t : ReportTransaction) (hwf : rowWellFormed t) :
    ∀ c ∈ joinChar ',' (csvRow t), c ≠ '\n' := by
  intro c hc
  rcases mem_joinChar _ _ _ hc with rfl | ⟨l, hl, hcl⟩
  · decide
  · rcases hwf with ⟨hid, hemail, hcur, hname, hdesc⟩
    simp only [csvRow, List.mem_cons, List.not_mem_nil, or_false] at hl
    rcases hl with rfl|rfl|rfl|rfl|rfl|rfl|rfl|rfl|rfl
    · exact (hid c hcl).2.2
    · exact quoteField_no_newline _ hname c hcl
    · exact (hemail c hcl).2.2
    · exact (toFixed2_chars _ c hcl).2.2
    · exact (hcur c hcl).2.2
    · exact (statusString_chars _ c hcl).2.2
    · exact (typeString_chars _ c hcl).2.2
    · exact quoteField_no_newline _ hdesc c hcl
    · exact (isoChars_chars _ c hcl).2.2

theorem parseCSV_generateCSV (ts : List ReportTransaction)
    (hwf : ∀ t ∈ ts, rowWellFormed t) :
    parseCSV (generateCSV ts)
      = (csvHeader.map (·.data))
        :: ts.map (fun t =>
          [t.id.data, t.customerName.data, t.customerEmail.data, toFixed2 t.amount,
           t.currency.data, t.status.asString.data, t.type.asString.data,
           (t.description.getD "").data, isoChars t.createdAt]) := by
  have hhdr : ∀ c ∈ joinChar ',' (csvHeader.map (·.data)), c ≠ '\n' := by decide
  have hrows : ∀ l ∈ ts.map (fun t => joinChar ',' (csvRow t)), ∀ c ∈ l, c ≠ '\n' := by
    intro l hl
    rcases List.mem_map.1 hl with ⟨t, ht, rfl⟩
    exact csvRow_no_newline t (hwf t ht)
  show ((splitOnChar '\n' (generateCSV ts).data).map parseRow) = _
  have hdata : (generateCSV ts).data
      = joinChar '\n' (joinChar ',' (csvHeader.map (·.data))
          :: ts.map (fun t => joinChar ',' (csvRow t))) := rfl
  have hhead : parseRow (joinChar ',' (csvHeader.map (·.data)))
      = csvHeader.map (·.data) := by decide
  rw [hdata, splitOnChar_joinChar _ _ hhdr hrows, List.map_cons, List.map_map, hhead]
  exact congrArg _ (List.map_congr_left (fun t ht => parseRow_csvRow t (hwf t ht)))

/-- C8 (amended): for every store and report filters, provided each
transaction's rendered unquoted free-text fields (ID, Customer Email,
Currency) contain no comma, double quote or newline and its Customer
Name and Description contain no double quote or newline, parsing the CSV
produced by `generateCSV` from `getReportData`'s transactions recovers,
row by row and field by field, the original ID, Customer Name, Customer
Email, Amount (rendered to two decimals), Currency, Status, Type,
Description and Date values; and given the data model's fixed-point
(two-decimal) amounts, the parsed Amount field denotes exactly the
original amount. -/
theorem generateCSV_roundtrip (s : Store) (f : ReportFilters)
    (hwf : ∀ t ∈ s.transactions, rowWellFormed (toReportTransaction t))
    (hamt : ∀ t ∈ s.transactions, ∃ z : ℤ, t.amount = (z : ℚ) / 100) :
    parseCSV (generateCSV (getReportData s f).transactions)
      = (csvHeader.map (·.data))
        :: (getReportData s f).transactions.map (fun t =>
          [t.id.data, t.customerName.data, t.customerEmail.data, toFixed2 t.amount,
           t.currency.data, t.status.asString.data, t.type.asString.data,
           (t.description.getD "").data, isoChars t.createdAt])
    ∧ ∀ t ∈ (getReportData s f).transactions,
        parseDecimal (toFixed2 t.amount) = t.amount := by
  have hmem : ∀ t ∈ (getReportData s f).transactions,
      ∃ t' ∈ s.transactions, t = toReportTransaction t' := by
    intro t ht
    have heq : (getReportData s f).transactions
        = (sortByCreatedAtDesc (s.transactions.filter (reportWhere f))).map
            toReportTransaction := rfl
    rw [heq] at ht
    rcases List.mem_map.1 ht with ⟨t'', hmem'', rfl⟩
    have hfil : t'' ∈ s.transactions.filter (reportWhere f) :=
      ((sortByCreatedAtDesc_perm _).mem_iff).1 hmem''
    exact ⟨t'', (List.mem_filter.1 hfil).1, rfl⟩
  constructor
  · apply parseCSV_generateCSV
    intro t ht
    rcases hmem t ht with ⟨t', ht', rfl⟩
    exact hwf t' ht'
  · intro t ht
    rcases hmem t ht with ⟨t', ht', rfl⟩
    rcases hamt t' ht' with ⟨z, hz⟩
    exact parseDecimal_toFixed2 _ ⟨z, hz⟩

/-- Witness for the amended C8 at the concrete three-transaction store. -/
theorem generateCSV_roundtrip_witness :
    parseCSV (generateCSV
        (getReportData sampleStore ⟨"org1", none, none, none, none⟩).transactions)
      = (csvHeader.map (·.data))
        :: (getReportData sampleStore ⟨"org1", none, none, none, none⟩).transactions.map
          (fun t =>
            [t.id.data, t.customerName.data, t.customerEmail.data, toFixed2 t.amount,
             t.currency.data, t.status.asString.data, t.type.asString.data,
             (t.description.getD "").data, isoChars t.createdAt]) :=
  (generateCSV_roundtrip sampleStore ⟨"org1", none, none, none, none⟩
    (by
      intro t ht
      simp only [sampleStore, List.mem_cons, List.not_mem_nil, or_false] at ht
      unfold rowWellFormed noSpecial noQuoteNewline
      rcases ht with rfl | rfl | rfl <;> decide)
    (by
      intro t ht
      simp only [sampleStore, List.mem_cons, List.not_mem_nil, or_false] at ht
      rcases ht with rfl | rfl | rfl
      · exact ⟨1000, by norm_num [tx1]⟩
      · exact ⟨2000, by norm_num [tx2]⟩
      · exact ⟨3000, by norm_num [tx3]⟩)).1

end SaaS
